import Mathlib

set_option linter.unusedVariables false

/-!
Shallow embedding of the unit query/filter engine of src/src/unit_filter.cpp.

External collaborators (the game map, teams, terrain filters, side filters,
the formula evaluator and the scripting kernel) are modelled as abstract
functions carried by an environment record; everything that unit_filter.cpp
itself implements is translated directly.  A handful of small utility
functions of the same repository that are not part of the excerpt
(utils::split, utils::parse_ranges, in_ranges) are modelled from the spec and
marked as such in their doc comments.
-/

/-- Raw attribute value of the config layer: `none` models a blank (absent)
`config::attribute_value`, `some s` a present value whose string form is `s`. -/
abbrev Attr := Option String

/-- attribute_value::blank(): the attribute is absent. -/
def Attr.blank (a : Attr) : Bool := a.isNone

/-- attribute_value::str(): the string form; a blank value prints as the empty string. -/
def Attr.str (a : Attr) : String := a.getD ""

/-- attribute_value::empty(): true for blank values and for present values whose
string form is the empty string. -/
def Attr.isEmptyV (a : Attr) : Bool := a.str == ""

/-- attribute_value::to_bool with a default, on the string forms we use. -/
def Attr.toBool (a : Attr) (d : Bool) : Bool :=
  match a with
  | none => d
  | some s =>
    if s == "yes" || s == "true" then true
    else if s == "no" || s == "false" then false
    else d

/-- attribute_value::to_int with a default, on the string forms we use. -/
def Attr.toInt (a : Attr) (d : Int) : Int :=
  match a with
  | none => d
  | some s => (s.toInt?).getD d

/-- Whitespace for the split step's strip policy. -/
def isSpaceChar (c : Char) : Bool :=
  c == ' ' || c == '\t' || c == '\n' || c == '\r'

/-- Strip surrounding whitespace from a character list. -/
def trimChars (l : List Char) : List Char :=
  ((l.dropWhile isSpaceChar).reverse.dropWhile isSpaceChar).reverse

/-- Split a character list on a separator, keeping empty pieces. -/
def splitChar (sep : Char) : List Char → List (List Char)
  | [] => [[]]
  | c :: rest =>
    if c == sep then [] :: splitChar sep rest
    else
      match splitChar sep rest with
      | [] => [[c]]
      | h :: t => (c :: h) :: t

/-- Modelled from the spec: `utils::split` (the repository's string utilities,
not under src/): a comma-separated list whose entries are stripped of
surrounding whitespace, empty entries removed. -/
def splitList (s : String) : List String :=
  ((splitChar ',' s.data).map (fun t => String.mk (trimChars t))).filter
    (fun t => !(t == ""))

/-- lazy_string_list: wraps a raw attribute value; `myList` is the mutable
cache (`boost::optional<std::vector<std::string>>`), `myStr` the stored raw
string.  The constructor eagerly installs an empty cached list for blank
attributes and otherwise stores the raw string with an empty cache. -/
structure LazyStringList where
  myStr : String
  myList : Option (List String)

/-- The lazy_string_list constructor. -/
def LazyStringList.ofAttr (a : Attr) : LazyStringList :=
  if a.blank then ⟨"", some []⟩ else ⟨a.str, none⟩

/-- lazy_string_list::get(), instrumented: returns the parsed list, the wrapper
state after the call (the cache is populated on first use), and the number of
split computations the call performed (0 or 1). -/
def LazyStringList.getI (l : LazyStringList) : List String × LazyStringList × Nat :=
  match l.myList with
  | some v => (v, l, 0)
  | none => (splitList l.myStr, ⟨l.myStr, some (splitList l.myStr)⟩, 1)

/-- The value lazy_string_list::get() returns. -/
def LazyStringList.get (l : LazyStringList) : List String := l.getI.1

/-- lazy_string_list::empty(). -/
def LazyStringList.empty (l : LazyStringList) : Bool := l.get.isEmpty

/-- lazy_string_list::find(): exact string membership in the parsed list. -/
def LazyStringList.find (l : LazyStringList) (s : String) : Bool := l.get.contains s

/-- Map location (map_location): a pair of integer hex coordinates. -/
structure Loc where
  x : Int
  y : Int
deriving DecidableEq

/-- Modelled from the spec: map_location::valid (map_location.hpp, not under
src/): a location is on-map when both coordinates are nonnegative.  In
basic_unit_filter_impl::matches this only selects whether a scoped "this_unit"
alias is bound, which is a query-context side effect with no observable
influence in this pure embedding. -/
def Loc.valid (l : Loc) : Bool := decide (0 ≤ l.x) && decide (0 ≤ l.y)

/-- A team, viewed through the two queries the filter engine uses. -/
structure Team where
  fogged : Loc → Bool
  isEnemy : Int → Bool

/-- A unit type, viewed through the queries the has_variation check uses. -/
structure UnitType where
  baseId : String
  hasVariation : String → Bool

/-- An entity (class unit), viewed through the accessors unit_filter.cpp calls.
Terrain-dependent stats and the formula bridge are the unit's own methods and
are carried as functions. -/
structure GameUnit where
  name : String
  id : String
  side : Int
  typeId : String
  variation : String
  utype : UnitType
  hasAbilityById : String → Bool
  race : String
  gender : String
  attacks : List String
  role : String
  stateGuardian : Bool
  canRecruit : Bool
  recallCost : Int
  level : Int
  defenseModifier : String → Int
  movementCost : String → Int
  invisible : Loc → Bool
  formulaMatches : String → Loc → Bool
  location : Loc

/-- The stored-variable store (game_data): given a variable name, either the
invalid-variable-name exception (modelled as `Except.error ()`) or the list of
`id` fields of the array's elements. -/
structure GameData where
  varArrayIds : String → Except Unit (List String)

/-- The filter context and display context: the world-access handle, with the
external collaborators the match evaluator calls.  `teams s` models
`teams()[s - 1]`, i.e. the team of side id `s` (1-indexed at the interface). -/
structure Env where
  units : List GameUnit
  unitAt : Loc → Option GameUnit
  onBoard : Loc → Bool
  getTerrain : Loc → String
  teams : Int → Team
  adjacent : Loc → Fin 6 → Loc
  matchesRange : Loc → String → String → Bool
  stringGender : String → String
  findType : String → UnitType
  gameData : Option GameData
  luaKernel : Option (String → GameUnit → Bool)

/-- conditional::TYPE from unit_filter.cpp: the [and]/[or]/[not] combinator tags. -/
inductive CondType where
  | AND
  | OR
  | NOT
deriving DecidableEq

/-- conditional::string_to_TYPE: parses a child tag as a combinator tag;
`none` models the bad_enum_cast path. -/
def stringToCond (s : String) : Option CondType :=
  if s == "and" then some CondType.AND
  else if s == "or" then some CondType.OR
  else if s == "not" then some CondType.NOT
  else none

/-- The FilterSpec (vconfig): `null` models a null vconfig, a node carries its
attribute table and its ordered child blocks. -/
inductive Spec where
  | null
  | node (attrs : String → Attr) (children : List (String × Spec))

/-- Attribute lookup on a FilterSpec node (`vcfg[key]`). -/
def Spec.attr : Spec → String → Attr
  | Spec.null, _ => none
  | Spec.node attrs _, k => attrs k

/-- The non-recursive compiled state of a basic filter: every scalar predicate
field of basic_unit_filter_impl, the two at-most-once sub-filters (compiled to
black-box predicates), the filter_wml checks (compiled to black-box unit
predicates), and the vision entries.  The source keeps the vision viewer sets
and visible attributes in two parallel vectors pushed in lockstep; they are
paired here. -/
structure LocalSpec where
  cfgName : Attr
  cfgId : LazyStringList
  cfgSpeaker : Attr
  cfgFilterLoc : Option (Loc → Bool)
  cfgFilterSide : Option (Int → Bool)
  cfgX : Attr
  cfgY : Attr
  cfgType : LazyStringList
  cfgVariationType : LazyStringList
  cfgHasVariationType : LazyStringList
  cfgAbility : LazyStringList
  cfgRace : LazyStringList
  cfgGender : Attr
  cfgSide : LazyStringList
  cfgSideToInt : Int
  cfgHasWeapon : Attr
  cfgRole : Attr
  cfgAiSpecial : Attr
  cfgCanrecruit : Attr
  cfgRecallCost : Attr
  cfgLevel : Attr
  cfgDefense : Attr
  cfgMovement : Attr
  wmlcfgs : List (GameUnit → Bool)
  visions : List (List Int × Bool)
  cfgFindIn : Attr
  cfgFormula : Attr
  cfgLuaFunction : Attr

/-- A compiled filter: the null implementation or a basic implementation with
its local state, its ordered combinator children (the source keeps the nested
filters and their types in two parallel vectors pushed in lockstep; they are
paired here), and its filter_adjacent entries
(nested filter, optional is_enemy flag, direction set, accepted count ranges). -/
inductive CompiledFilter where
  | null
  | basic (locals : LocalSpec)
      (conds : List (CondType × CompiledFilter))
      (adjs : List (CompiledFilter × Option Bool × List (Fin 6) × List (Int × Int)))

/-- Modelled from the spec: `in_ranges` (the repository's utilities, not under
src/): a value lies in a list of closed integer ranges. -/
def inRanges (v : Int) (rs : List (Int × Int)) : Bool :=
  rs.any (fun r => decide (r.1 ≤ v) && decide (v ≤ r.2))

/-- Digit-sequence parser for range bounds; `none` on empty or non-digit
input. -/
def parseNatChars : List Char → Option Nat
  | [] => none
  | l =>
    l.foldl
      (fun acc c =>
        match acc with
        | none => none
        | some n => if c.isDigit then some (n * 10 + (c.toNat - 48)) else none)
      (some 0)

/-- Modelled from the spec: `utils::parse_ranges` (not under src/):
comma-separated entries, each either "a-b" (a closed range) or "a" (a
singleton range); in particular "1-6" parses to [(1, 6)]. -/
def parseRanges (s : String) : List (Int × Int) :=
  (splitChar ',' s.data).map (fun t =>
    match splitChar '-' t with
    | [a] => ((Int.ofNat ((parseNatChars a).getD 0), Int.ofNat ((parseNatChars a).getD 0)) : Int × Int)
    | [a, b] => (Int.ofNat ((parseNatChars a).getD 0), Int.ofNat ((parseNatChars b).getD 0))
    | _ => (0, 0))

/-- map_location::default_dirs(): all six hex directions. -/
def defaultDirs : List (Fin 6) := [0, 1, 2, 3, 4, 5]

/-- The explicit x/y check of internal_matches_filter (the block starting with
the comment "Also allow filtering on location ranges outside of the location
filter"): returns the pass/fail verdict of that block, true when the block
imposes no constraint (both attributes blank). -/
def xyCheck (env : Env) (x y : Attr) (loc : Loc) : Bool :=
  if !x.blank || !y.blank then
    if x.str == "recall" && y.str == "recall" then
      !env.onBoard loc
    else if x.isEmptyV && y.isEmptyV then
      false
    else
      env.matchesRange loc x.str y.str
  else true

/-- One vision check of internal_matches_filter: an entity is hidden from a
viewer side when that side's fog covers the location or the entity is
concealed there; the check passes when at least one viewer side's hidden state
differs from the required visible attribute. -/
def visionPass (env : Env) (u : GameUnit) (loc : Loc) (viewers : List Int)
    (visibleAttr : Bool) : Bool :=
  viewers.any (fun v =>
    visibleAttr != ((env.teams v).fogged loc || u.invisible loc))

/-- basic_unit_filter_impl::internal_matches_filter.  The per-entry results of
the adjacency block are passed in as `adjResults` (they recurse into nested
filters and are produced by `adjLoop` below); every check is a pure predicate,
so hoisting them out of the conjunction does not change its value.  Each
early `return false` of the source becomes one `if ... then false` stage. -/
def internalMatches (env : Env) (l : LocalSpec) (adjResults : List Bool)
    (u : GameUnit) (loc : Loc) : Bool :=
  if !l.cfgName.blank && l.cfgName.str != u.name then false
  else if !l.cfgId.empty && !l.cfgId.find u.id then false
  else if !l.cfgSpeaker.blank && l.cfgSpeaker.str != u.id then false
  else if (match l.cfgFilterLoc with | some p => !p loc | none => false) then false
  else if (match l.cfgFilterSide with | some p => !p u.side | none => false) then false
  else if !(xyCheck env l.cfgX l.cfgY loc) then false
  else if !l.cfgType.empty && !l.cfgType.find u.typeId then false
  else if !l.cfgVariationType.empty && !l.cfgVariationType.find u.variation then false
  else if !l.cfgHasVariationType.empty &&
      !(l.cfgHasVariationType.get.any
          (if u.variation == "" then u.utype else env.findType u.utype.baseId).hasVariation) then false
  else if !l.cfgAbility.empty && !(l.cfgAbility.get.any u.hasAbilityById) then false
  else if !l.cfgRace.empty && !l.cfgRace.find u.race then false
  else if !l.cfgGender.blank && env.stringGender l.cfgGender.str != u.gender then false
  else if !l.cfgSide.empty && l.cfgSideToInt != u.side &&
      !(l.cfgSide.find (toString u.side)) then false
  else if !l.cfgHasWeapon.blank && !(u.attacks.contains l.cfgHasWeapon.str) then false
  else if !l.cfgRole.blank && l.cfgRole.str != u.role then false
  else if !l.cfgAiSpecial.blank &&
      ((l.cfgAiSpecial.str == "guardian") != u.stateGuardian) then false
  else if !l.cfgCanrecruit.blank && l.cfgCanrecruit.toBool false != u.canRecruit then false
  else if !l.cfgRecallCost.blank && l.cfgRecallCost.toInt (-1) != u.recallCost then false
  else if !l.cfgLevel.blank && l.cfgLevel.toInt (-1) != u.level then false
  else if !l.cfgDefense.blank &&
      l.cfgDefense.toInt (-1) != u.defenseModifier (env.getTerrain loc) then false
  else if !l.cfgMovement.blank &&
      l.cfgMovement.toInt (-1) != u.movementCost (env.getTerrain loc) then false
  else if !(l.wmlcfgs.all (fun p => p u)) then false
  else if !(l.visions.all (fun v => visionPass env u loc v.1 v.2)) then false
  else if !(adjResults.all (fun b => b)) then false
  else if !l.cfgFindIn.blank &&
      (match env.gameData with
       | none => false
       | some gd =>
         match gd.varArrayIds l.cfgFindIn.str with
         | Except.error _ => true
         | Except.ok ids => !(ids.contains u.id)) then false
  else if !l.cfgFormula.blank && !(u.formulaMatches l.cfgFormula.str loc) then false
  else if !l.cfgLuaFunction.blank &&
      (match env.luaKernel with
       | none => false
       | some k => !(k l.cfgLuaFunction.str u)) then false
  else true

/-- One iteration of the combinator switch in basic_unit_filter_impl::matches. -/
def condTypeStep (acc : Bool) (t : CondType) (c : Bool) : Bool :=
  match t with
  | CondType.AND => acc && c
  | CondType.OR => acc || c
  | CondType.NOT => acc && !c

mutual
/-- unit_filter::matches / basic_unit_filter_impl::matches: the null filter
matches unconditionally; a basic filter evaluates its local predicate (the
`if (loc.valid())` branch of the source only toggles the scoped "this_unit"
context binding, a side effect outside this pure embedding, so both branches
evaluate the same local predicate) and then runs the ordered combinator loop
over it. -/
def matchesF (env : Env) : CompiledFilter → GameUnit → Loc → Bool
  | CompiledFilter.null, _, _ => true
  | CompiledFilter.basic l cs adjs, u, loc =>
    condLoop env u loc cs
      (if loc.valid then internalMatches env l (adjLoop env u loc adjs) u loc
       else internalMatches env l (adjLoop env u loc adjs) u loc)
termination_by f u loc => sizeOf f

/-- The combinator loop of basic_unit_filter_impl::matches, folding the
accumulator through the (type, child) entries in description order. -/
def condLoop (env : Env) (u : GameUnit) (loc : Loc) :
    List (CondType × CompiledFilter) → Bool → Bool
  | [], acc => acc
  | (t, c) :: rest, acc =>
    condLoop env u loc rest (condTypeStep acc t (matchesF env c u loc))
termination_by cs acc => sizeOf cs

/-- The filter_adjacent block of internal_matches_filter: one pass verdict per
entry, in order. -/
def adjLoop (env : Env) (u : GameUnit) (loc : Loc) :
    List (CompiledFilter × Option Bool × List (Fin 6) × List (Int × Int)) → List Bool
  | [] => []
  | (f, ie, dirs, counts) :: rest =>
    inRanges (adjDirCount env u loc f ie dirs) counts :: adjLoop env u loc rest
termination_by adjs => sizeOf adjs

/-- The inner direction loop of one filter_adjacent entry: a neighbor location
is counted when it holds an entity, that entity matches the nested filter at
its own location (unit_filter::operator() calls matches(u, u.get_location())),
and, when the is_enemy flag is present, the flag equals the enemy relation of
the tested entity's side's team to the neighbor's side. -/
def adjDirCount (env : Env) (u : GameUnit) (loc : Loc) (f : CompiledFilter)
    (ie : Option Bool) : List (Fin 6) → Int
  | [] => 0
  | d :: rest =>
    let cnt := adjDirCount env u loc f ie rest
    match env.unitAt (env.adjacent loc d) with
    | none => cnt
    | some n =>
      if !matchesF env f n n.location then cnt
      else if (match ie with
               | none => true
               | some b => b == (env.teams u.side).isEnemy n.side) then cnt + 1
      else cnt
termination_by dirs => sizeOf f + sizeOf dirs
end

/-- The mutable construction state of the basic_unit_filter_impl constructor
loop: the two at-most-once sub-filters and the three grow-only vectors the
loop pushes into. -/
structure BState where
  fLoc : Option (Loc → Bool)
  fSide : Option (Int → Bool)
  conds : List (CondType × CompiledFilter)
  visions : List (List Int × Bool)
  adjs : List (CompiledFilter × Option Bool × List (Fin 6) × List (Int × Int))

/-- The compile-time collaborators the constructor calls: the terrain_filter
and side_filter constructors (black boxes producing predicates),
side_filter::get_teams, map_location::parse_directions, and the deep config
match behind one filter_wml block. -/
structure CEnv where
  compileTerrain : Spec → (Loc → Bool)
  compileSide : Spec → (Int → Bool)
  sideFilterTeams : Spec → List Int
  parseDirs : String → List (Fin 6)
  wmlPred : Spec → (GameUnit → Bool)

/-- The member-initializer part of the basic_unit_filter_impl constructor:
every scalar field read off the attribute table, plus the filter_wml children
collected by vcfg.get_children("filter_wml"), merged with the state the child
loop produced. -/
def mkLocal (ce : CEnv) (attrs : String → Attr) (children : List (String × Spec))
    (st : BState) : LocalSpec :=
  { cfgName := attrs "name"
    cfgId := LazyStringList.ofAttr (attrs "id")
    cfgSpeaker := attrs "speaker"
    cfgFilterLoc := st.fLoc
    cfgFilterSide := st.fSide
    cfgX := attrs "x"
    cfgY := attrs "y"
    cfgType := LazyStringList.ofAttr (attrs "type")
    cfgVariationType := LazyStringList.ofAttr (attrs "variation")
    cfgHasVariationType := LazyStringList.ofAttr (attrs "has_variation")
    cfgAbility := LazyStringList.ofAttr (attrs "ability")
    cfgRace := LazyStringList.ofAttr (attrs "race")
    cfgGender := attrs "gender"
    cfgSide := LazyStringList.ofAttr (attrs "side")
    cfgSideToInt := (attrs "side").toInt (-999)
    cfgHasWeapon := attrs "has_weapon"
    cfgRole := attrs "role"
    cfgAiSpecial := attrs "ai_special"
    cfgCanrecruit := attrs "canrecruit"
    cfgRecallCost := attrs "recall_cost"
    cfgLevel := attrs "level"
    cfgDefense := attrs "defense"
    cfgMovement := attrs "movement_cost"
    wmlcfgs := (children.filter (fun c => c.1 == "filter_wml")).map (fun c => ce.wmlPred c.2)
    visions := st.visions
    cfgFindIn := attrs "find_in"
    cfgFormula := attrs "formula"
    cfgLuaFunction := attrs "lua_function" }

mutual
/-- The factory `construct` plus the unit_filter constructor: a null vconfig
produces the null implementation, otherwise the basic implementation is built
by running the constructor's ordered child loop.  A thrown wml_exception
(FAIL) is modelled as `Except.error` carrying the message. -/
def compile (ce : CEnv) : Spec → Except String CompiledFilter
  | Spec.null => Except.ok CompiledFilter.null
  | Spec.node attrs children =>
    match compileChildren ce children ⟨none, none, [], [], []⟩ with
    | Except.error e => Except.error e
    | Except.ok st =>
      Except.ok (CompiledFilter.basic (mkLocal ce attrs children st) st.conds st.adjs)
termination_by s => sizeOf s

/-- The body of one iteration of the constructor's child loop, classifying the
child block by its tag. -/
def compileChild (ce : CEnv) (key : String) (ch : Spec) (st : BState) :
    Except String BState :=
  match stringToCond key with
  | some t =>
    match compile ce ch with
    | Except.error e => Except.error e
    | Except.ok cf => Except.ok { st with conds := st.conds ++ [(t, cf)] }
  | none =>
    if key == "filter_vision" then
      Except.ok { st with
        visions := st.visions ++ [(ce.sideFilterTeams ch, (ch.attr "visible").toBool true)] }
    else if key == "filter_adjacent" then
      match compile ce ch with
      | Except.error e => Except.error e
      | Except.ok cf =>
        Except.ok { st with adjs := st.adjs ++
          [(cf,
            if (ch.attr "is_enemy").blank then none
            else some ((ch.attr "is_enemy").toBool false),
            if (ch.attr "adjacent").blank then defaultDirs
            else ce.parseDirs (ch.attr "adjacent").str,
            if (ch.attr "count").blank then parseRanges "1-6"
            else parseRanges (ch.attr "count").str)] }
    else if key == "filter_location" then
      match st.fLoc with
      | none => Except.ok { st with fLoc := some (ce.compileTerrain ch) }
      | some _ => Except.error "encountered multiple [filter_location] children of a standard unit filter"
    else if key == "filter_side" then
      match st.fSide with
      | none => Except.ok { st with fSide := some (ce.compileSide ch) }
      | some _ => Except.error "encountered multiple [filter_side] children of a standard unit filter"
    else
      Except.ok st
termination_by sizeOf ch + 1

/-- The constructor's ordered pass over the child blocks. -/
def compileChildren (ce : CEnv) : List (String × Spec) → BState → Except String BState
  | [], st => Except.ok st
  | (key, ch) :: rest, st =>
    match compileChild ce key ch st with
    | Except.error e => Except.error e
    | Except.ok st2 => compileChildren ce rest st2
termination_by l st => sizeOf l
end

/-- Number of child blocks of a node that carry a given tag. -/
def keyCount (children : List (String × Spec)) (k : String) : Nat :=
  (children.filter (fun c => c.1 == k)).length

mutual
/-- Every node of the FilterSpec holds at most one filter_location and at most
one filter_side child block. -/
def dupFreeB : Spec → Bool
  | Spec.null => true
  | Spec.node _ children =>
    decide (keyCount children "filter_location" ≤ 1) &&
    decide (keyCount children "filter_side" ≤ 1) &&
    dupFreeChildren children
termination_by s => sizeOf s

/-- dupFreeB on every child block of a list. -/
def dupFreeChildren : List (String × Spec) → Bool
  | [] => true
  | (_, ch) :: rest => dupFreeB ch && dupFreeChildren rest
termination_by l => sizeOf l
end

/-- Success test for a construction outcome. -/
def isOkE {ε α : Type} : Except ε α → Bool
  | Except.ok _ => true
  | Except.error _ => false

/-- null_unit_filter_impl::all_matches_on_map pushes every entity of the world
collection; basic_unit_filter_impl::all_matches_on_map pushes the entities for
which matches holds, iterating in the world's native order. -/
def allMatchesOnMap (env : Env) : CompiledFilter → List GameUnit
  | CompiledFilter.null => env.units
  | CompiledFilter.basic l cs adjs =>
    env.units.filter
      (fun u => matchesF env (CompiledFilter.basic l cs adjs) u u.location)

/-- null_unit_filter_impl::first_match_on_map takes the collection's first
entity; basic_unit_filter_impl::first_match_on_map returns the first entity
satisfying matches, or the empty shared pointer (`none`). -/
def firstMatchOnMap (env : Env) : CompiledFilter → Option GameUnit
  | CompiledFilter.null => env.units.head?
  | CompiledFilter.basic l cs adjs =>
    env.units.find?
      (fun u => matchesF env (CompiledFilter.basic l cs adjs) u u.location)

/-- The combinator fold exactly as the claim words it, over precomputed child
results: in description order, an AND entry updates the accumulator to
acc AND child, an OR entry to acc OR child, a NOT entry to acc AND NOT child. -/
def condFoldSpec (start : Bool) (pairs : List (CondType × Bool)) : Bool :=
  pairs.foldl
    (fun acc p =>
      match p.1 with
      | CondType.AND => acc && p.2
      | CondType.OR => acc || p.2
      | CondType.NOT => acc && !p.2)
    start

/-- Whether the combinator loop actually calls child i's nested matches: the
C++ builtin `&&`/`||` in `matches = matches && child.matches(u,loc)` (resp.
`||`, `&& !`) short-circuit, so the child is called exactly when an AND or NOT
entry sees a true accumulator, or an OR entry sees a false one. -/
def evalNeededAt (start : Bool) (pairs : List (CondType × Bool)) (i : Nat) : Bool :=
  match pairs[i]? with
  | some p =>
    match p.1 with
    | CondType.OR => !(condFoldSpec start (pairs.take i))
    | _ => condFoldSpec start (pairs.take i)
  | none => false

/-- Instrumented combinator loop: records, in order, the position (offset by
`k`) of every entry whose nested matches call is actually made under the C++
short-circuit semantics of `&&` and `||`.  When an entry's child call is
skipped the accumulator keeps its forced value, which coincides with
`condTypeStep` applied to the untouched child result. -/
def condEvalLog (acc : Bool) (k : Nat) : List (CondType × Bool) → List Nat
  | [] => []
  | (t, c) :: rest =>
    (if (match t with | CondType.OR => !acc | _ => acc) then [k] else []) ++
    condEvalLog (condTypeStep acc t c) (k + 1) rest

/-- The positions of the combinator children whose nested matches gets called
during one matches(u, loc) query on a basic filter. -/
def childEvalLog (env : Env) : CompiledFilter → GameUnit → Loc → List Nat
  | CompiledFilter.null, _, _ => []
  | CompiledFilter.basic l cs adjs, u, loc =>
    condEvalLog (internalMatches env l (adjLoop env u loc adjs) u loc) 0
      (cs.map (fun c => (c.1, matchesF env c.2 u loc)))

/-- The adjacency count as the claim words it: the number of configured
directions whose neighbor location holds an entity that matches the nested
filter and satisfies the optional enemy-flag requirement relative to the
tested entity's side. -/
def qualCount (env : Env) (u : GameUnit) (loc : Loc) (f : CompiledFilter)
    (ie : Option Bool) (dirs : List (Fin 6)) : Nat :=
  dirs.countP (fun d =>
    match env.unitAt (env.adjacent loc d) with
    | none => false
    | some n =>
      matchesF env f n n.location &&
      (match ie with
       | none => true
       | some b => b == (env.teams u.side).isEnemy n.side))

/-- A LocalSpec with every constraint absent: all attributes blank, no
sub-filters, no wml, no vision entries. -/
def blankLocal : LocalSpec :=
  { cfgName := none
    cfgId := LazyStringList.ofAttr none
    cfgSpeaker := none
    cfgFilterLoc := none
    cfgFilterSide := none
    cfgX := none
    cfgY := none
    cfgType := LazyStringList.ofAttr none
    cfgVariationType := LazyStringList.ofAttr none
    cfgHasVariationType := LazyStringList.ofAttr none
    cfgAbility := LazyStringList.ofAttr none
    cfgRace := LazyStringList.ofAttr none
    cfgGender := none
    cfgSide := LazyStringList.ofAttr none
    cfgSideToInt := Attr.toInt none (-999)
    cfgHasWeapon := none
    cfgRole := none
    cfgAiSpecial := none
    cfgCanrecruit := none
    cfgRecallCost := none
    cfgLevel := none
    cfgDefense := none
    cfgMovement := none
    wmlcfgs := []
    visions := []
    cfgFindIn := none
    cfgFormula := none
    cfgLuaFunction := none }

/-- A unit type with no declared variations, for concrete instances. -/
def ut0 : UnitType := ⟨"", fun _ => false⟩

/-- A concrete on-map location. -/
def loc0 : Loc := ⟨0, 0⟩

/-- A concrete entity named "b", used by the concrete instances. -/
def u0 : GameUnit :=
  { name := "b"
    id := "u"
    side := 1
    typeId := ""
    variation := ""
    utype := ut0
    hasAbilityById := fun _ => false
    race := ""
    gender := ""
    attacks := []
    role := ""
    stateGuardian := false
    canRecruit := false
    recallCost := 0
    level := 0
    defenseModifier := fun _ => 0
    movementCost := fun _ => 0
    invisible := fun _ => false
    formulaMatches := fun _ _ => false
    location := loc0 }

/-- A team with no fog and no enemies, for concrete instances. -/
def team0 : Team := ⟨fun _ => false, fun _ => false⟩

/-- A concrete world: one entity, no neighbor lookup hits, every location on
board, every range query succeeding, no stored-variable store, no scripting
kernel. -/
def env0 : Env :=
  { units := [u0]
    unitAt := fun _ => none
    onBoard := fun _ => true
    getTerrain := fun _ => ""
    teams := fun _ => team0
    adjacent := fun l _ => l
    matchesRange := fun _ _ _ => true
    stringGender := fun s => s
    findType := fun _ => ut0
    gameData := none
    luaKernel := none }

/-- env0 with a stored-variable store whose every lookup throws the
invalid-variable-name exception. -/
def envG : Env := { env0 with gameData := some ⟨fun _ => Except.error ()⟩ }

/-- Compile-time collaborators for concrete instances: trivial terrain and
side predicates, no viewer sides, no parsed directions, trivial wml checks. -/
def ce0 : CEnv :=
  { compileTerrain := fun _ _ => true
    compileSide := fun _ _ => true
    sideFilterTeams := fun _ => []
    parseDirs := fun _ => []
    wmlPred := fun _ _ => true }

/-- A local predicate that fails on u0: the name constraint "a" does not equal
u0's name "b". -/
def falseLocal : LocalSpec := { blankLocal with cfgName := some "a" }

/-- A basic filter with no constraints: its local predicate always passes. -/
def trueFilter : CompiledFilter := CompiledFilter.basic blankLocal [] []

/-- A basic filter whose local predicate fails on u0. -/
def falseFilter : CompiledFilter := CompiledFilter.basic falseLocal [] []

/-- The mixed-operator example of the claim: local predicate false, children
[AND falseFilter, OR trueFilter]. -/
def c1Filter : CompiledFilter :=
  CompiledFilter.basic falseLocal
    [(CondType.AND, falseFilter), (CondType.OR, trueFilter)] []

/-- A basic filter with a false local predicate and one AND child. -/
def c2Filter : CompiledFilter :=
  CompiledFilter.basic falseLocal [(CondType.AND, trueFilter)] []

/-- An attribute table with every key blank. -/
def attrs0 : String → Attr := fun _ => none

/-- A FilterSpec node with two filter_location child blocks. -/
def specTwoLoc : Spec :=
  Spec.node attrs0 [("filter_location", Spec.null), ("filter_location", Spec.null)]

/-- A FilterSpec node with a single filter_location child block. -/
def specOneLoc : Spec := Spec.node attrs0 [("filter_location", Spec.null)]

/-- The empty construction state the constructor starts from. -/
def st0 : BState := ⟨none, none, [], [], []⟩

theorem matchesF_null (env : Env) (u : GameUnit) (loc : Loc) :
    matchesF env CompiledFilter.null u loc = true := by
  simp [matchesF]

theorem matchesF_basic (env : Env) (l : LocalSpec)
    (cs : List (CondType × CompiledFilter))
    (adjs : List (CompiledFilter × Option Bool × List (Fin 6) × List (Int × Int)))
    (u : GameUnit) (loc : Loc) :
    matchesF env (CompiledFilter.basic l cs adjs) u loc
      = condLoop env u loc cs (internalMatches env l (adjLoop env u loc adjs) u loc) := by
  simp [matchesF]

theorem condLoop_nil (env : Env) (u : GameUnit) (loc : Loc) (acc : Bool) :
    condLoop env u loc [] acc = acc := by
  simp [condLoop]

theorem condLoop_cons (env : Env) (u : GameUnit) (loc : Loc) (t : CondType)
    (c : CompiledFilter) (rest : List (CondType × CompiledFilter)) (acc : Bool) :
    condLoop env u loc ((t, c) :: rest) acc
      = condLoop env u loc rest (condTypeStep acc t (matchesF env c u loc)) := by
  simp [condLoop]

theorem adjLoop_nil (env : Env) (u : GameUnit) (loc : Loc) :
    adjLoop env u loc [] = [] := by
  simp [adjLoop]

theorem adjLoop_cons (env : Env) (u : GameUnit) (loc : Loc) (f : CompiledFilter)
    (ie : Option Bool) (dirs : List (Fin 6)) (counts : List (Int × Int))
    (rest : List (CompiledFilter × Option Bool × List (Fin 6) × List (Int × Int))) :
    adjLoop env u loc ((f, ie, dirs, counts) :: rest)
      = inRanges (adjDirCount env u loc f ie dirs) counts :: adjLoop env u loc rest := by
  simp [adjLoop]

theorem adjDirCount_nil (env : Env) (u : GameUnit) (loc : Loc) (f : CompiledFilter)
    (ie : Option Bool) : adjDirCount env u loc f ie [] = 0 := by
  simp [adjDirCount]

theorem adjDirCount_cons (env : Env) (u : GameUnit) (loc : Loc) (f : CompiledFilter)
    (ie : Option Bool) (d : Fin 6) (rest : List (Fin 6)) :
    adjDirCount env u loc f ie (d :: rest)
      = (match env.unitAt (env.adjacent loc d) with
         | none => adjDirCount env u loc f ie rest
         | some n =>
           if !matchesF env f n n.location then adjDirCount env u loc f ie rest
           else if (match ie with
                    | none => true
                    | some b => b == (env.teams u.side).isEnemy n.side) then
             adjDirCount env u loc f ie rest + 1
           else adjDirCount env u loc f ie rest) := by
  rw [adjDirCount]

/-- The combinator loop computes the plain left fold of the claim over the
precomputed child results. -/
theorem condLoop_eq_condFoldSpec (env : Env) (u : GameUnit) (loc : Loc) :
    ∀ (cs : List (CondType × CompiledFilter)) (acc : Bool),
      condLoop env u loc cs acc
        = condFoldSpec acc (cs.map (fun c => (c.1, matchesF env c.2 u loc))) := by
  intro cs
  induction cs with
  | nil => intro acc; simp [condLoop, condFoldSpec]
  | cons hd tl ih =>
    intro acc
    obtain ⟨t, c⟩ := hd
    rw [condLoop_cons, ih]
    simp [condFoldSpec, condTypeStep]

/-- C1: for every compiled basic filter, matches(E, L) equals the left fold,
in description order, of the local predicate result through the combinator
entries, where an AND child updates the accumulator to acc AND child, an OR
child to acc OR child and a NOT child to acc AND NOT child; in particular the
concrete filter with a false local predicate and children
[AND false-child, OR true-child] matches. -/
theorem c1_matches_is_left_fold :
    (∀ (env : Env) (l : LocalSpec) (cs : List (CondType × CompiledFilter))
       (adjs : List (CompiledFilter × Option Bool × List (Fin 6) × List (Int × Int)))
       (u : GameUnit) (loc : Loc),
      matchesF env (CompiledFilter.basic l cs adjs) u loc
        = condFoldSpec (internalMatches env l (adjLoop env u loc adjs) u loc)
            (cs.map (fun c => (c.1, matchesF env c.2 u loc))))
    ∧ matchesF env0 c1Filter u0 loc0 = true := by
  constructor
  · intro env l cs adjs u loc
    rw [matchesF_basic, condLoop_eq_condFoldSpec]
  · simp only [c1Filter, falseFilter, trueFilter, matchesF_basic, condLoop_cons,
      condLoop_nil, adjLoop_nil]
    decide

/-- C3: a filter compiled from a null FilterSpec is the Null variant; it
matches every entity at every location, and its all_matches enumeration
returns every entity of the world collection. -/
theorem c3_null_filter :
    (∀ ce : CEnv, compile ce Spec.null = Except.ok CompiledFilter.null)
    ∧ (∀ (env : Env) (u : GameUnit) (loc : Loc),
        matchesF env CompiledFilter.null u loc = true)
    ∧ (∀ env : Env, allMatchesOnMap env CompiledFilter.null = env.units) := by
  refine ⟨fun ce => by simp [compile], fun env u loc => matchesF_null env u loc,
    fun env => rfl⟩

/-- find? with an everywhere-true predicate returns the head. -/
theorem find?_of_const_true {α : Type} (p : α → Bool) (h : ∀ x, p x = true) :
    ∀ l : List α, l.find? p = l.head?
  | [] => rfl
  | a :: t => by rw [List.find?_cons_of_pos _ (h a)]; rfl

/-- C9: first_match returns the first entity, in the world's native iteration
order, for which matches(entity, entity.location) holds, and the no-match
sentinel when no entity matches; all_matches returns exactly the entities for
which matches holds. -/
theorem c9_map_queries : ∀ (env : Env) (f : CompiledFilter),
    (∀ u, u ∈ allMatchesOnMap env f ↔
       (u ∈ env.units ∧ matchesF env f u u.location = true))
    ∧ firstMatchOnMap env f = env.units.find? (fun u => matchesF env f u u.location)
    ∧ (firstMatchOnMap env f = none ↔
        ∀ u ∈ env.units, matchesF env f u u.location = false)
    ∧ (∀ u, firstMatchOnMap env f = some u ↔
        (matchesF env f u u.location = true ∧
         ∃ l1 l2, env.units = l1 ++ u :: l2 ∧
           ∀ v ∈ l1, matchesF env f v v.location = false)) := by
  intro env f
  have hfind : firstMatchOnMap env f
      = env.units.find? (fun u => matchesF env f u u.location) := by
    cases f with
    | null =>
      rw [find?_of_const_true _ (fun x => matchesF_null env x x.location)]
      rfl
    | basic l cs adjs => rfl
  refine ⟨?_, hfind, ?_, ?_⟩
  · intro u
    cases f with
    | null => simp [allMatchesOnMap, matchesF_null]
    | basic l cs adjs => simp [allMatchesOnMap, List.mem_filter]
  · rw [hfind, List.find?_eq_none]
    constructor
    · intro h u hu
      have := h u hu
      simpa using this
    · intro h u hu
      simp [h u hu]
  · intro u
    rw [hfind, List.find?_eq_some]
    constructor
    · rintro ⟨hp, l1, l2, heq, hprev⟩
      exact ⟨hp, l1, l2, heq, fun v hv => by simpa using hprev v hv⟩
    · rintro ⟨hp, l1, l2, heq, hprev⟩
      exact ⟨hp, l1, l2, heq, fun v hv => by simp [hprev v hv]⟩

/-- With a null game-data handle the find_in check imposes no constraint on
the local predicate. -/
theorem internalMatches_findIn_none (env : Env) (hgd : env.gameData = none)
    (l : LocalSpec) (adjRes : List Bool) (u : GameUnit) (loc : Loc) (a : Attr) :
    internalMatches env { l with cfgFindIn := a } adjRes u loc
      = internalMatches env { l with cfgFindIn := none } adjRes u loc := by
  simp [internalMatches, hgd, Attr.blank]

/-- C10: when the filter context's game-data handle is null, a find_in
attribute is skipped entirely: matches agrees with the otherwise-identical
filter without find_in, whatever the named variable would have been; the
fail-closed behaviour applies only when the store is reachable, where a lookup
throwing the invalid-variable-name exception makes the check report
non-match. -/
theorem c10_findIn_skipped_without_gamedata :
    (∀ (env : Env) (l : LocalSpec) (cs : List (CondType × CompiledFilter))
       (adjs : List (CompiledFilter × Option Bool × List (Fin 6) × List (Int × Int)))
       (u : GameUnit) (loc : Loc) (a : Attr),
       env.gameData = none →
       matchesF env (CompiledFilter.basic { l with cfgFindIn := a } cs adjs) u loc
         = matchesF env (CompiledFilter.basic { l with cfgFindIn := none } cs adjs) u loc)
    ∧ (∀ (env : Env) (gd : GameData) (u : GameUnit) (loc : Loc) (s : String),
       env.gameData = some gd → gd.varArrayIds s = Except.error () →
       internalMatches env { blankLocal with cfgFindIn := some s } [] u loc = false) := by
  constructor
  · intro env l cs adjs u loc a hgd
    rw [matchesF_basic, matchesF_basic, internalMatches_findIn_none env hgd]
  · intro env gd u loc s hgd herr
    simp [internalMatches, blankLocal, hgd, herr, xyCheck, Attr.blank, Attr.str,
      LazyStringList.ofAttr, LazyStringList.empty, LazyStringList.get, LazyStringList.getI]

theorem c10_findIn_skipped_without_gamedata_witness :
    (matchesF env0 (CompiledFilter.basic { blankLocal with cfgFindIn := some "v" } [] []) u0 loc0
       = matchesF env0 (CompiledFilter.basic { blankLocal with cfgFindIn := none } [] []) u0 loc0)
    ∧ internalMatches envG { blankLocal with cfgFindIn := some "v" } [] u0 loc0 = false :=
  ⟨c10_findIn_skipped_without_gamedata.1 env0 blankLocal [] [] u0 loc0 (some "v") rfl,
   c10_findIn_skipped_without_gamedata.2 envG ⟨fun _ => Except.error ()⟩ u0 loc0 "v" rfl rfl⟩

/-- Boolean inequality with the required attribute means the hidden state is
the negation of the required visibility. -/
theorem bne_eq_true_iff_eq_not (b h : Bool) : (b != h) = true ↔ h = !b := by
  cases b <;> cases h <;> simp

/-- C6: a vision check passes iff at least one viewer side's hidden state for
the entity (that side's fog covers the location, or the entity is concealed
there) equals the negation of the required visible attribute — any-of over the
viewer sides, not all-of; and on a filter whose only constraint is one vision
entry, the local predicate is exactly that check. -/
theorem c6_vision_any_of :
    (∀ (env : Env) (u : GameUnit) (loc : Loc) (viewers : List Int) (b : Bool),
       visionPass env u loc viewers b = true ↔
         ∃ v ∈ viewers, ((env.teams v).fogged loc || u.invisible loc) = !b)
    ∧ (∀ (env : Env) (u : GameUnit) (loc : Loc) (viewers : List Int) (b : Bool),
       internalMatches env { blankLocal with visions := [(viewers, b)] } [] u loc
         = visionPass env u loc viewers b) := by
  constructor
  · intro env u loc viewers b
    simp only [visionPass, List.any_eq_true, bne_eq_true_iff_eq_not]
  · intro env u loc viewers b
    cases hv : visionPass env u loc viewers b <;>
      simp [internalMatches, blankLocal, xyCheck, Attr.blank, Attr.str,
        LazyStringList.ofAttr, LazyStringList.empty, LazyStringList.get,
        LazyStringList.getI, hv]

/-- A filter whose only constraints are the x/y attributes reduces to the x/y
check. -/
theorem internalMatches_xy (env : Env) (x y : Attr) (u : GameUnit) (loc : Loc) :
    internalMatches env { blankLocal with cfgX := x, cfgY := y } [] u loc
      = xyCheck env x y loc := by
  cases hxy : xyCheck env x y loc <;>
    simp [internalMatches, blankLocal, Attr.blank, Attr.str,
      LazyStringList.ofAttr, LazyStringList.empty, LazyStringList.get,
      LazyStringList.getI, hxy]

/-- C5 counterexample: x is present ("3") and y is absent.  The claim calls
this an incomplete pair and predicts an automatic non-match, but the code
auto-fails only when both strings are empty; here the check falls through to
matches_range (constantly true in env0, as the real matches_range is for
x="3" at a location whose x coordinate is 3) and the filter matches. -/
theorem c5_incomplete_pair_matches :
    internalMatches env0 { blankLocal with cfgX := some "3" } [] u0 loc0 = true := by
  decide

/-- C5 amended: with at least one of x/y present, the check passes iff either
both are literally "recall" and the location is off board, or the pair is not
the recall pair, both strings are not simultaneously empty, and the location
matches the given x/y ranges; the automatic non-match case is "both string
forms empty while at least one attribute is present", not "one present but
not the other". -/
theorem c5_xy_check_characterization :
    ∀ (env : Env) (x y : Attr) (u : GameUnit) (loc : Loc),
      ¬(x.blank = true ∧ y.blank = true) →
      (internalMatches env { blankLocal with cfgX := x, cfgY := y } [] u loc = true ↔
        (((x.str = "recall" ∧ y.str = "recall") ∧ env.onBoard loc = false)
         ∨ (¬(x.str = "recall" ∧ y.str = "recall")
            ∧ (¬(x.str = "" ∧ y.str = "")
               ∧ env.matchesRange loc x.str y.str = true)))) := by
  intro env x y u loc hpres
  rw [internalMatches_xy, xyCheck]
  have hg : (!x.blank || !y.blank) = true := by
    cases hx : x.blank <;> cases hy : y.blank <;> simp_all
  rw [if_pos hg]
  cases hb : (x.str == "recall" && y.str == "recall") with
  | true =>
    have hr : x.str = "recall" ∧ y.str = "recall" := by
      simpa [Bool.and_eq_true, beq_iff_eq] using hb
    rw [if_pos (by simp [hb])]
    simp [hr.1, hr.2, Bool.not_eq_true']
  | false =>
    have hr : ¬(x.str = "recall" ∧ y.str = "recall") := by
      intro h
      rw [h.1, h.2] at hb
      simp at hb
    rw [if_neg (by simp [hb])]
    cases he : (x.isEmptyV && y.isEmptyV) with
    | true =>
      have hee : x.str = "" ∧ y.str = "" := by
        simpa [Attr.isEmptyV, Bool.and_eq_true, beq_iff_eq] using he
      rw [if_pos (by simp [he])]
      simp [hr, hee]
    | false =>
      have hee : ¬(x.str = "" ∧ y.str = "") := by
        intro h
        simp [Attr.isEmptyV, h.1, h.2] at he
      rw [if_neg (by simp [he])]
      simp [hr, hee]

theorem c5_xy_check_characterization_witness :
    internalMatches env0 { blankLocal with cfgX := some "3", cfgY := some "4" } [] u0 loc0 = true ↔
      (((Attr.str (some "3") = "recall" ∧ Attr.str (some "4") = "recall")
          ∧ env0.onBoard loc0 = false)
       ∨ (¬(Attr.str (some "3") = "recall" ∧ Attr.str (some "4") = "recall")
          ∧ (¬(Attr.str (some "3") = "" ∧ Attr.str (some "4") = "")
             ∧ env0.matchesRange loc0 (Attr.str (some "3")) (Attr.str (some "4")) = true))) :=
  c5_xy_check_characterization env0 (some "3") (some "4") u0 loc0 (by decide)

/-- C8 counterexample: a present-but-empty raw value is not blank
(attribute_value::blank() is false for it), yet the wrapper's emptiness query
reports true, because the parse of "" is the empty list.  The claim's
"reports true only if the raw value was absent/blank" therefore fails. -/
theorem c8_empty_on_present_value :
    (LazyStringList.ofAttr (some "")).empty = true ∧ Attr.blank (some "") = false := by
  decide

/-- C8 amended: the emptiness query reports true iff the raw value is blank or
its string form splits to the empty list (so also for present raw values that
are empty or hold only commas and whitespace); membership is exact string
membership in the parsed list; the parse is computed at most once and cached
(after any get, a further get performs zero split computations and returns the
same list and the same state); and the parsed value is a deterministic pure
function of the raw value. -/
theorem c8_lazy_list_characterization :
    (∀ a : Attr, ((LazyStringList.ofAttr a).empty = true ↔
        (a.blank = true ∨ splitList a.str = [])))
    ∧ (∀ (a : Attr) (s : String),
        (LazyStringList.ofAttr a).find s
          = (if a.blank then [] else splitList a.str).contains s)
    ∧ (∀ l : LazyStringList, (l.getI.2.1).getI = (l.getI.1, l.getI.2.1, 0))
    ∧ (∀ a : Attr, (LazyStringList.ofAttr a).get
        = if a.blank then [] else splitList a.str) := by
  have hget : ∀ a : Attr, (LazyStringList.ofAttr a).get
      = if a.blank then [] else splitList a.str := by
    intro a
    cases a <;>
      simp [LazyStringList.ofAttr, LazyStringList.get, LazyStringList.getI,
        Attr.blank, Attr.str]
  refine ⟨?_, ?_, ?_, hget⟩
  · intro a
    rw [LazyStringList.empty, hget]
    cases a <;> simp [Attr.blank, Attr.str, List.isEmpty_iff]
  · intro a s
    rw [LazyStringList.find, hget]
  · intro l
    obtain ⟨s, ml⟩ := l
    cases ml <;> simp [LazyStringList.getI]

/-- The source's direction loop computes exactly the count of qualifying
directions. -/
theorem adjDirCount_eq_qualCount (env : Env) (u : GameUnit) (loc : Loc)
    (f : CompiledFilter) (ie : Option Bool) :
    ∀ dirs : List (Fin 6),
      adjDirCount env u loc f ie dirs = Int.ofNat (qualCount env u loc f ie dirs)
  | [] => by simp [adjDirCount_nil, qualCount]
  | d :: rest => by
    have ih := adjDirCount_eq_qualCount env u loc f ie rest
    rw [adjDirCount_cons]
    simp only [qualCount, List.countP_cons] at ih ⊢
    cases hu : env.unitAt (env.adjacent loc d) with
    | none => simp [ih, hu]
    | some n =>
      cases hm : matchesF env f n n.location with
      | false => simp [ih, hu, hm]
      | true =>
        cases hie : (match ie with
                     | none => true
                     | some b => b == (env.teams u.side).isEnemy n.side) with
        | false => simp [ih, hu, hm, hie]
        | true => simp [ih, hu, hm, hie]

/-- C7: a filter_adjacent check counts, over the configured direction set, the
neighbor locations holding an entity that matches the nested filter and, when
the enemy/ally flag is present, whose enemy-relation to the tested entity's
side equals the flag; the check passes iff the count lies in the accepted
count ranges; "1-6" parses to the single closed range (1, 6), so with the
default ranges a count of zero never passes; and compiling a filter_adjacent
child with blank adjacent/is_enemy/count attributes installs the defaults:
all six directions and the "1-6" ranges. -/
theorem c7_adjacency_count :
    (∀ (env : Env) (u : GameUnit) (loc : Loc) (f : CompiledFilter) (ie : Option Bool)
       (dirs : List (Fin 6)) (counts : List (Int × Int)),
       adjLoop env u loc [(f, ie, dirs, counts)]
         = [inRanges (Int.ofNat (qualCount env u loc f ie dirs)) counts])
    ∧ (∀ (n : Int) (counts : List (Int × Int)),
       inRanges n counts = true ↔ ∃ p ∈ counts, p.1 ≤ n ∧ n ≤ p.2)
    ∧ parseRanges "1-6" = [(1, 6)]
    ∧ (∀ (env : Env) (u : GameUnit) (loc : Loc) (f : CompiledFilter) (ie : Option Bool)
       (dirs : List (Fin 6)),
       qualCount env u loc f ie dirs = 0 →
       adjLoop env u loc [(f, ie, dirs, parseRanges "1-6")] = [false])
    ∧ (∀ (ce : CEnv) (ch : Spec) (st : BState) (cf : CompiledFilter),
       compile ce ch = Except.ok cf →
       (ch.attr "adjacent").blank = true →
       (ch.attr "is_enemy").blank = true →
       (ch.attr "count").blank = true →
       compileChild ce "filter_adjacent" ch st
         = Except.ok { st with adjs := st.adjs ++ [(cf, none, defaultDirs, parseRanges "1-6")] }) := by
  have h16 : parseRanges "1-6" = [(1, 6)] := by decide
  refine ⟨?_, ?_, h16, ?_, ?_⟩
  · intro env u loc f ie dirs counts
    rw [adjLoop_cons, adjLoop_nil, adjDirCount_eq_qualCount]
  · intro n counts
    simp [inRanges, List.any_eq_true]
  · intro env u loc f ie dirs hq
    rw [adjLoop_cons, adjLoop_nil, adjDirCount_eq_qualCount, hq, h16]
    rfl
  · intro ce ch st cf hcf ha hie hcnt
    simp [compileChild, stringToCond, hcf, ha, hie, hcnt]

theorem c7_adjacency_count_witness :
    (qualCount env0 u0 loc0 CompiledFilter.null none defaultDirs = 0
      ∧ adjLoop env0 u0 loc0 [(CompiledFilter.null, none, defaultDirs, parseRanges "1-6")] = [false])
    ∧ compileChild ce0 "filter_adjacent" Spec.null st0
        = Except.ok { st0 with
            adjs := st0.adjs ++ [(CompiledFilter.null, none, defaultDirs, parseRanges "1-6")] } := by
  have hq : qualCount env0 u0 loc0 CompiledFilter.null none defaultDirs = 0 := by decide
  refine ⟨⟨hq, c7_adjacency_count.2.2.2.1 env0 u0 loc0 CompiledFilter.null none defaultDirs hq⟩, ?_⟩
  exact c7_adjacency_count.2.2.2.2 ce0 Spec.null st0 CompiledFilter.null (by simp [compile])
    rfl rfl rfl

theorem condFoldSpec_nil (acc : Bool) : condFoldSpec acc [] = acc := rfl

theorem condFoldSpec_cons (acc : Bool) (t : CondType) (c : Bool)
    (rest : List (CondType × Bool)) :
    condFoldSpec acc ((t, c) :: rest) = condFoldSpec (condTypeStep acc t c) rest := by
  simp [condFoldSpec, condTypeStep]

theorem evalNeededAt_zero (acc : Bool) (t : CondType) (c : Bool)
    (rest : List (CondType × Bool)) :
    evalNeededAt acc ((t, c) :: rest) 0
      = (match t with | CondType.OR => !acc | _ => acc) := by
  cases t <;> simp [evalNeededAt, condFoldSpec]

theorem evalNeededAt_cons (acc : Bool) (t : CondType) (c : Bool)
    (rest : List (CondType × Bool)) (i : Nat) :
    evalNeededAt acc ((t, c) :: rest) (i + 1)
      = evalNeededAt (condTypeStep acc t c) rest i := by
  cases hi : rest[i]? with
  | none => simp [evalNeededAt, hi]
  | some p =>
    obtain ⟨pt, pc⟩ := p
    cases pt <;> simp [evalNeededAt, hi, List.take_succ_cons, condFoldSpec_cons]

/-- The instrumented combinator loop logs exactly the indices at which the
accumulator does not already force the entry's outcome. -/
theorem condEvalLog_eq_filter :
    ∀ (pairs : List (CondType × Bool)) (acc : Bool) (k : Nat),
      condEvalLog acc k pairs
        = ((List.range pairs.length).filter (evalNeededAt acc pairs)).map (fun i => i + k)
  | [], acc, k => by simp [condEvalLog]
  | (t, c) :: rest, acc, k => by
    have ih := condEvalLog_eq_filter rest (condTypeStep acc t c) (k + 1)
    have hcomp : (evalNeededAt acc ((t, c) :: rest)) ∘ Nat.succ
        = evalNeededAt (condTypeStep acc t c) rest := by
      funext i
      simp [Function.comp, Nat.succ_eq_add_one, evalNeededAt_cons]
    simp only [condEvalLog, ih, List.length_cons, List.range_succ_eq_map,
      List.filter_cons, List.filter_map, hcomp, evalNeededAt_zero]
    cases t <;> cases acc <;>
      simp [List.map_map, Function.comp, Nat.succ_eq_add_one, Nat.add_assoc,
        Nat.add_comm 1 k]

/-- C2 counterexample: c2Filter has exactly one combinator child (an AND
child) and its local predicate is false on u0, so under the C++ short-circuit
semantics of `&&` in `matches = matches && child.matches(u, loc)` the child's
nested matches is never called: the call log of the query is empty, while the
claim predicts one call ([0]) regardless of the accumulator. -/
theorem c2_and_child_skipped :
    childEvalLog env0 c2Filter u0 loc0 = [] := by
  have h1 : internalMatches env0 falseLocal [] u0 loc0 = false := by decide
  simp only [c2Filter, childEvalLog, adjLoop_nil, List.map, h1]
  rfl

/-- C2 amended: each combinator child's nested matches is evaluated at most
once per query, and is evaluated exactly when the accumulator does not already
force the entry's result when the child is reached: an AND or NOT child is
called iff the accumulator is then true, an OR child iff it is then false (the
C++ builtin `&&` and `||` short-circuit the call).  The loop itself never
breaks, so the call log is exactly the in-order filtered index range — in
particular duplicate-free. -/
theorem c2_children_evaluated_at_most_once :
    ∀ (env : Env) (l : LocalSpec) (cs : List (CondType × CompiledFilter))
      (adjs : List (CompiledFilter × Option Bool × List (Fin 6) × List (Int × Int)))
      (u : GameUnit) (loc : Loc),
      childEvalLog env (CompiledFilter.basic l cs adjs) u loc
        = (List.range cs.length).filter
            (evalNeededAt (internalMatches env l (adjLoop env u loc adjs) u loc)
              (cs.map (fun c => (c.1, matchesF env c.2 u loc))))
      ∧ (childEvalLog env (CompiledFilter.basic l cs adjs) u loc).Nodup := by
  intro env l cs adjs u loc
  have h := condEvalLog_eq_filter
    (cs.map (fun c => (c.1, matchesF env c.2 u loc)))
    (internalMatches env l (adjLoop env u loc adjs) u loc) 0
  have hmain : childEvalLog env (CompiledFilter.basic l cs adjs) u loc
      = (List.range cs.length).filter
          (evalNeededAt (internalMatches env l (adjLoop env u loc adjs) u loc)
            (cs.map (fun c => (c.1, matchesF env c.2 u loc)))) := by
    simp only [childEvalLog, h, List.length_map]
    simp
  exact ⟨hmain, hmain ▸ List.Nodup.filter _ (List.nodup_range _)⟩

theorem isOkE_iff {ε α : Type} (e : Except ε α) :
    isOkE e = true ↔ ∃ a, e = Except.ok a := by
  cases e <;> simp [isOkE]

theorem stringToCond_some_keys (key : String) (t : CondType)
    (h : stringToCond key = some t) :
    (key == "filter_location") = false ∧ (key == "filter_side") = false := by
  unfold stringToCond at h
  split_ifs at h with h1 h2 h3
  · have := eq_of_beq h1
    subst this
    exact ⟨by decide, by decide⟩
  · have := eq_of_beq h2
    subst this
    exact ⟨by decide, by decide⟩
  · have := eq_of_beq h3
    subst this
    exact ⟨by decide, by decide⟩

/-- A second filter_location child of the same node makes the constructor
throw. -/
theorem compileChild_err_dup_loc (ce : CEnv) (ch : Spec) (st : BState)
    (hs : st.fLoc.isSome = true) :
    isOkE (compileChild ce "filter_location" ch st) = false := by
  obtain ⟨p, hp⟩ := Option.isSome_iff_exists.mp hs
  simp [compileChild, stringToCond, hp, isOkE]

/-- A second filter_side child of the same node makes the constructor throw. -/
theorem compileChild_err_dup_side (ce : CEnv) (ch : Spec) (st : BState)
    (hs : st.fSide.isSome = true) :
    isOkE (compileChild ce "filter_side" ch st) = false := by
  obtain ⟨p, hp⟩ := Option.isSome_iff_exists.mp hs
  simp [compileChild, stringToCond, hp, isOkE]

/-- A successful constructor-loop step sets the location (resp. side)
sub-filter exactly when the child's tag is filter_location (resp.
filter_side), and never clears either. -/
theorem compileChild_ok_flags (ce : CEnv) (key : String) (ch : Spec) (st st2 : BState)
    (h : compileChild ce key ch st = Except.ok st2) :
    st2.fLoc.isSome = (st.fLoc.isSome || (key == "filter_location"))
    ∧ st2.fSide.isSome = (st.fSide.isSome || (key == "filter_side")) := by
  unfold compileChild at h
  cases hstc : stringToCond key with
  | some t =>
    obtain ⟨hk1, hk2⟩ := stringToCond_some_keys key t hstc
    rw [hstc] at h
    cases hc : compile ce ch with
    | error e => rw [hc] at h; cases h
    | ok cf =>
      rw [hc] at h
      cases h
      simp [hk1, hk2]
  | none =>
    rw [hstc] at h
    by_cases hv : key = "filter_vision"
    · subst hv
      simp only [show (("filter_vision" : String) == "filter_vision") = true by decide,
        if_pos] at h
      cases h
      simp
    · rw [if_neg (by simpa using hv)] at h
      by_cases ha : key = "filter_adjacent"
      · subst ha
        simp only [show (("filter_adjacent" : String) == "filter_adjacent") = true by decide,
          if_pos] at h
        cases hc : compile ce ch with
        | error e => rw [hc] at h; cases h
        | ok cf =>
          rw [hc] at h
          cases h
          simp
      · rw [if_neg (by simpa using ha)] at h
        by_cases hl : key = "filter_location"
        · subst hl
          simp only [show (("filter_location" : String) == "filter_location") = true by decide,
            if_pos] at h
          cases hsl : st.fLoc with
          | none => rw [hsl] at h; cases h; simp [hsl]
          | some p => rw [hsl] at h; cases h
        · rw [if_neg (by simpa using hl)] at h
          by_cases hsd : key = "filter_side"
          · subst hsd
            simp only [show (("filter_side" : String) == "filter_side") = true by decide,
              if_pos] at h
            cases hss : st.fSide with
            | none => rw [hss] at h; cases h; simp [hss]
            | some p => rw [hss] at h; cases h
          · rw [if_neg (by simpa using hsd)] at h
            cases h
            simp [show (key == "filter_location") = false by simpa using hl,
              show (key == "filter_side") = false by simpa using hsd]

theorem keyCount_cons (key : String) (ch : Spec) (rest : List (String × Spec)) (k : String) :
    keyCount ((key, ch) :: rest) k
      = (if (key == k) = true then 1 else 0) + keyCount rest k := by
  by_cases h : (key == k) = true <;> simp [keyCount, List.filter_cons, h, Nat.add_comm]

/-- The constructor's child loop cannot succeed once the pending
filter_location (or filter_side) occurrences, counting an already-installed
sub-filter, reach two. -/
theorem compileChildren_err (ce : CEnv) :
    ∀ (l : List (String × Spec)) (st : BState),
      (2 ≤ keyCount l "filter_location" + (if st.fLoc.isSome then 1 else 0)
        ∨ 2 ≤ keyCount l "filter_side" + (if st.fSide.isSome then 1 else 0)) →
      isOkE (compileChildren ce l st) = false
  | [], st => by
    intro h
    cases hsl : st.fLoc.isSome <;> cases hss : st.fSide.isSome <;>
      simp [keyCount, hsl, hss] at h
  | (key, ch) :: rest, st => by
    intro h
    cases hc : compileChild ce key ch st with
    | error e => simp [compileChildren, hc, isOkE]
    | ok st2 =>
      have hflags := compileChild_ok_flags ce key ch st st2 hc
      have hdupl : ¬((key == "filter_location") = true ∧ st.fLoc.isSome = true) := by
        rintro ⟨hk, hsome⟩
        have herr := compileChild_err_dup_loc ce ch st hsome
        rw [eq_of_beq hk] at hc
        rw [hc] at herr
        simp [isOkE] at herr
      have hdups : ¬((key == "filter_side") = true ∧ st.fSide.isSome = true) := by
        rintro ⟨hk, hsome⟩
        have herr := compileChild_err_dup_side ce ch st hsome
        rw [eq_of_beq hk] at hc
        rw [hc] at herr
        simp [isOkE] at herr
      have hll : keyCount rest "filter_location" + (if st2.fLoc.isSome then 1 else 0)
          = keyCount ((key, ch) :: rest) "filter_location"
            + (if st.fLoc.isSome then 1 else 0) := by
        rw [keyCount_cons, hflags.1]
        cases hkl : (key == "filter_location") with
        | false => cases hsl : st.fLoc.isSome <;> simp
        | true =>
          cases hsl : st.fLoc.isSome with
          | true => exact absurd ⟨hkl, hsl⟩ hdupl
          | false =>
            simp
            omega
      have hss : keyCount rest "filter_side" + (if st2.fSide.isSome then 1 else 0)
          = keyCount ((key, ch) :: rest) "filter_side"
            + (if st.fSide.isSome then 1 else 0) := by
        rw [keyCount_cons, hflags.2]
        cases hks : (key == "filter_side") with
        | false => cases hsd : st.fSide.isSome <;> simp
        | true =>
          cases hsd : st.fSide.isSome with
          | true => exact absurd ⟨hks, hsd⟩ hdups
          | false =>
            simp
            omega
      have hnext :
          2 ≤ keyCount rest "filter_location" + (if st2.fLoc.isSome then 1 else 0)
          ∨ 2 ≤ keyCount rest "filter_side" + (if st2.fSide.isSome then 1 else 0) := by
        rcases h with h | h
        · left; omega
        · right; omega
      have hrec := compileChildren_err ce rest st2 hnext
      simpa [compileChildren, hc] using hrec

/-- A constructor-loop step succeeds whenever the nested compile (if any)
succeeds and the step is not a duplicate filter_location/filter_side. -/
theorem compileChild_isOk (ce : CEnv) (key : String) (ch : Spec) (st : BState)
    (hok : isOkE (compile ce ch) = true)
    (hL : (key == "filter_location") = true → st.fLoc.isSome = false)
    (hS : (key == "filter_side") = true → st.fSide.isSome = false) :
    isOkE (compileChild ce key ch st) = true := by
  obtain ⟨cf, hcf⟩ := (isOkE_iff _).mp hok
  cases hstc : stringToCond key with
  | some t => simp [compileChild, hstc, hcf, isOkE]
  | none =>
    by_cases hv : key = "filter_vision"
    · subst hv
      simp [compileChild, hstc, isOkE]
    · by_cases ha : key = "filter_adjacent"
      · subst ha
        simp [compileChild, hstc, hcf, isOkE]
      · by_cases hl : key = "filter_location"
        · subst hl
          have hx := hL (by decide)
          have hnone : st.fLoc = none := by
            cases hy : st.fLoc
            · rfl
            · rw [hy] at hx; cases hx
          simp [compileChild, hstc, hnone, isOkE]
        · by_cases hsd : key = "filter_side"
          · subst hsd
            have hx := hS (by decide)
            have hnone : st.fSide = none := by
              cases hy : st.fSide
              · rfl
              · rw [hy] at hx; cases hx
            simp [compileChild, hstc, hnone, isOkE]
          · simp [compileChild, hstc, isOkE,
              show (key == "filter_vision") = false by simpa using hv,
              show (key == "filter_adjacent") = false by simpa using ha,
              show (key == "filter_location") = false by simpa using hl,
              show (key == "filter_side") = false by simpa using hsd]

/-- The constructor's child loop succeeds when every nested compile succeeds
and the pending filter_location/filter_side occurrences, counting an already
installed sub-filter, stay at most one each. -/
theorem compileChildren_ok (ce : CEnv) :
    ∀ (l : List (String × Spec)) (st : BState),
      (∀ k ch, (k, ch) ∈ l → isOkE (compile ce ch) = true) →
      keyCount l "filter_location" + (if st.fLoc.isSome then 1 else 0) ≤ 1 →
      keyCount l "filter_side" + (if st.fSide.isSome then 1 else 0) ≤ 1 →
      isOkE (compileChildren ce l st) = true
  | [], st => by
    intro _ _ _
    simp [compileChildren, isOkE]
  | (key, ch) :: rest, st => by
    intro H hLc hSc
    have hok : isOkE (compile ce ch) = true := H key ch (List.mem_cons_self _ _)
    have hL : (key == "filter_location") = true → st.fLoc.isSome = false := by
      intro hk
      cases hx : st.fLoc.isSome
      · rfl
      · exfalso
        rw [keyCount_cons] at hLc
        simp [hk, hx] at hLc
    have hS : (key == "filter_side") = true → st.fSide.isSome = false := by
      intro hk
      cases hx : st.fSide.isSome
      · rfl
      · exfalso
        rw [keyCount_cons] at hSc
        simp [hk, hx] at hSc
    have hcOk := compileChild_isOk ce key ch st hok hL hS
    obtain ⟨st2, hst2⟩ := (isOkE_iff _).mp hcOk
    have hflags := compileChild_ok_flags ce key ch st st2 hst2
    have hll : keyCount rest "filter_location" + (if st2.fLoc.isSome then 1 else 0) ≤ 1 := by
      rw [keyCount_cons] at hLc
      rw [hflags.1]
      cases hkl : (key == "filter_location") with
      | false =>
        cases hsl : st.fLoc.isSome <;> simp [hsl] at hLc ⊢ <;> omega
      | true =>
        have hx := hL hkl
        simp [hkl, hx] at hLc ⊢
        omega
    have hssb : keyCount rest "filter_side" + (if st2.fSide.isSome then 1 else 0) ≤ 1 := by
      rw [keyCount_cons] at hSc
      rw [hflags.2]
      cases hks : (key == "filter_side") with
      | false =>
        cases hsd : st.fSide.isSome <;> simp [hsd] at hSc ⊢ <;> omega
      | true =>
        have hx := hS hks
        simp [hks, hx] at hSc ⊢
        omega
    have hrec := compileChildren_ok ce rest st2
      (fun k c hm => H k c (List.mem_cons_of_mem _ hm)) hll hssb
    simpa [compileChildren, hst2] using hrec

theorem dupFreeB_node (attrs : String → Attr) (children : List (String × Spec))
    (h : dupFreeB (Spec.node attrs children) = true) :
    keyCount children "filter_location" ≤ 1 ∧ keyCount children "filter_side" ≤ 1
    ∧ dupFreeChildren children = true := by
  simp only [dupFreeB, Bool.and_eq_true, decide_eq_true_eq] at h
  exact ⟨h.1.1, h.1.2, h.2⟩

theorem dupFreeChildren_mem :
    ∀ (l : List (String × Spec)) (k : String) (ch : Spec),
      dupFreeChildren l = true → (k, ch) ∈ l → dupFreeB ch = true
  | [], _, _, _, hm => by cases hm
  | (k0, c0) :: rest, k, ch, hd, hm => by
    simp only [dupFreeChildren, Bool.and_eq_true] at hd
    rcases List.mem_cons.mp hm with heq | hmem
    · injection heq with h1 h2
      subst h2
      exact hd.1
    · exact dupFreeChildren_mem rest k ch hd.2 hmem

/-- A FilterSpec every node of which holds at most one filter_location and at
most one filter_side child constructs without error. -/
theorem compile_ok_of_dupFree (ce : CEnv) :
    ∀ (n : Nat) (s : Spec), sizeOf s ≤ n → dupFreeB s = true → isOkE (compile ce s) = true
  | _, Spec.null, _, _ => by simp [compile, isOkE]
  | 0, Spec.node attrs children, hsz, _ => by
    rw [Spec.node.sizeOf_spec] at hsz
    omega
  | Nat.succ n, Spec.node attrs children, hsz, hdf => by
    obtain ⟨hc1, hc2, hdfc⟩ := dupFreeB_node attrs children hdf
    have H : ∀ k ch, (k, ch) ∈ children → isOkE (compile ce ch) = true := by
      intro k ch hm
      have hlt : sizeOf (k, ch) < sizeOf children := List.sizeOf_lt_of_mem hm
      have h2 : sizeOf (k, ch) = 1 + sizeOf k + sizeOf ch := Prod.mk.sizeOf_spec k ch
      have h1 : sizeOf (Spec.node attrs children) = 1 + sizeOf children :=
        Spec.node.sizeOf_spec attrs children
      have hszch : sizeOf ch ≤ n := by omega
      exact compile_ok_of_dupFree ce n ch hszch (dupFreeChildren_mem children k ch hdfc hm)
    have hok := compileChildren_ok ce children ⟨none, none, [], [], []⟩ H
      (by simpa using hc1) (by simpa using hc2)
    obtain ⟨st, hst⟩ := (isOkE_iff _).mp hok
    simp [compile, hst, isOkE]

/-- C4: a FilterSpec node holding two or more filter_location (or two or more
filter_side) child blocks makes construction fail with the fatal error; a
FilterSpec every node of which holds at most one of each constructs without
raising it. -/
theorem c4_duplicate_subfilter_blocks :
    (∀ (ce : CEnv) (attrs : String → Attr) (children : List (String × Spec)),
       (2 ≤ keyCount children "filter_location" ∨ 2 ≤ keyCount children "filter_side") →
       isOkE (compile ce (Spec.node attrs children)) = false)
    ∧ (∀ (ce : CEnv) (s : Spec), dupFreeB s = true → isOkE (compile ce s) = true) := by
  constructor
  · intro ce attrs children h
    have herr := compileChildren_err ce children ⟨none, none, [], [], []⟩ (by
      rcases h with h | h
      · exact Or.inl (by simpa using h)
      · exact Or.inr (by simpa using h))
    cases hc : compileChildren ce children ⟨none, none, [], [], []⟩ with
    | error e => simp [compile, hc, isOkE]
    | ok st =>
      rw [hc] at herr
      simp [isOkE] at herr
  · intro ce s hdf
    exact compile_ok_of_dupFree ce (sizeOf s) s (Nat.le_refl _) hdf

theorem c4_duplicate_subfilter_blocks_witness :
    isOkE (compile ce0 specTwoLoc) = false ∧ isOkE (compile ce0 specOneLoc) = true :=
  ⟨c4_duplicate_subfilter_blocks.1 ce0 attrs0
      [("filter_location", Spec.null), ("filter_location", Spec.null)]
      (Or.inl (by decide)),
   c4_duplicate_subfilter_blocks.2 ce0 specOneLoc (by
      simp [dupFreeB, dupFreeChildren, keyCount, specOneLoc, attrs0])⟩
